import Mathlib

/-!
Verification development for the solarwinds-chat repository.

Each service function referenced by the specification is embedded as an
executable Lean definition translated from the Python source.  Machine
floats that only ever hold small exact values (similarity scores, rate
limiter timestamps, word-count quotients) are modelled by `ℚ`; fallible
Python code is modelled by `Option`/`Except`, with `none`/`.error`
marking an uncaught Python exception.
-/

namespace SWChat

/-! ### Python string primitives

Helpers mirroring the Python `str` methods used by the services:
`str.strip()`, `str.split()` (split on whitespace runs, dropping empty
pieces), and `str.lower()`. -/

/-- Characters treated as whitespace by Python's `str.strip()` / `str.split()`
(ASCII range; the services only feed ASCII content). -/
def isPyWs (c : Char) : Bool :=
  c = ' ' || c = '\t' || c = '\n' || c = '\x0d' || c = '\x0b' || c = '\x0c'

/-- Python `s.strip()`: drop leading and trailing whitespace. -/
def pyStrip (s : String) : String :=
  String.mk (((s.toList.dropWhile isPyWs).reverse.dropWhile isPyWs).reverse)

/-- Python `s.split()` with no argument: split on runs of whitespace,
discarding empty pieces. -/
def pyWords (s : String) : List String :=
  ((s.toList.splitOnP isPyWs).filter (fun l => l ≠ [])).map String.mk

/-- Python `s.lower()` (ASCII). -/
def pyLower (s : String) : String := String.mk (s.toList.map Char.toLower)

/-- Python `max(a, b)` on numbers (kernel-reducible form of `max` on `ℚ`). -/
def pyMax (a b : ℚ) : ℚ := if a ≤ b then b else a

theorem pyMax_eq_max (a b : ℚ) : pyMax a b = max a b := by
  by_cases h : a ≤ b <;> simp [pyMax, max_def, h]

/-- Python float division `a / b` of two nonnegative ints, as an exact
rational (the float quotients compared in the services involve only
small integers, where the double rounding cannot cross the thresholds
they are compared against). -/
def pyDiv (a b : ℕ) : ℚ := mkRat a b

theorem pyDiv_eq_div (a b : ℕ) : pyDiv a b = (a : ℚ) / (b : ℚ) := by
  simp [pyDiv, Rat.mkRat_eq_div]

/-! ### text_processing.py — `TextProcessingService.validate_content`

Source: `app/services/text_processing.py`, lines 239–284.  The returned
Python dict is embedded as `ValidationResult`; the two keys that the
early empty-content return omits (`unique_word_ratio`, `character_count`)
are `Option` fields.  The source divides by `len(words)` in the
repetition check without a zero guard (the `if words else 0` guard
appears only in the final dict literal), so the embedding returns `none`
— a `ZeroDivisionError` — when the word list is empty at that point. -/

/-- Result dictionary of `validate_content`.  The field named
`unique_word_ratio` in the source is called `unique_word_frac` here. -/
structure ValidationResult where
  is_valid : Bool
  issues : List String
  word_count : ℕ
  unique_word_frac : Option ℚ
  estimated_reading_time : ℚ
  character_count : Option ℕ
deriving DecidableEq

/-- Embedding of `TextProcessingService.validate_content`.  `none` models an
uncaught `ZeroDivisionError`. -/
def validate_content (content : String) : Option ValidationResult :=
  if content = "" then
    some { is_valid := false
           issues := ["Content is empty"]
           word_count := 0
           unique_word_frac := none
           estimated_reading_time := 0
           character_count := none }
  else
    let issues1 : List String :=
      if (pyStrip content).length < 50 then ["Content is too short"] else []
    let word_count := (pyWords content).length
    let issues2 : List String :=
      if word_count < 10 then ["Content has too few words"] else []
    let words := pyWords (pyLower content)
    let unique_words := words.dedup
    if words.length = 0 then
      none
    else
      let issues3 : List String :=
        if pyDiv unique_words.length words.length < mkRat 3 10 then
          ["Content appears to be repetitive"]
        else []
      let issues := issues1 ++ issues2 ++ issues3
      some { is_valid := issues.isEmpty
             issues := issues
             word_count := word_count
             unique_word_frac := some (pyDiv unique_words.length words.length)
             estimated_reading_time := pyMax 1 (pyDiv word_count 200)
             character_count := some content.length }

/-! ### schemas.py — `ChatRequest` validation

Source: `app/models/schemas.py`, lines 9–18.  The `query` field carries
`min_length=1, max_length=1000` and no other validator, so pydantic
accepts exactly the raw (untrimmed) lengths 1..1000. -/

/-- Pydantic acceptance predicate for `ChatRequest.query`. -/
def chatRequestQueryAccepted (q : String) : Bool :=
  1 ≤ q.length && q.length ≤ 1000

theorem mkRat_three_ten : (mkRat 3 10 : ℚ) = 3 / 10 := by
  norm_num [Rat.mkRat_eq_div]

/-- Claim C8: `validate_content` marks content invalid exactly when at least
one issue holds — empty content, trimmed length under 50 characters, fewer
than 10 words, or unique-word ratio below 0.30 — and returns
`is_valid = true` precisely when zero issues are flagged.  Stated for every
input on which the source returns (returns `some r`). -/
theorem claim_C8_validate_content_valid_iff (s : String) (r : ValidationResult)
    (h : validate_content s = some r) :
    (r.is_valid = true ↔ r.issues = []) ∧
    (r.is_valid = false ↔
      (s = "" ∨ (pyStrip s).length < 50 ∨ (pyWords s).length < 10 ∨
        ((pyWords (pyLower s)).dedup.length : ℚ) / ((pyWords (pyLower s)).length : ℚ)
          < 3 / 10)) := by
  simp only [validate_content] at h
  by_cases he : s = ""
  · rw [if_pos he] at h
    obtain rfl := (Option.some.inj h).symm
    simp [he]
  · rw [if_neg he] at h
    by_cases hz : (pyWords (pyLower s)).length = 0
    · rw [if_pos hz] at h
      cases h
    · rw [if_neg hz] at h
      obtain rfl := (Option.some.inj h).symm
      rw [pyDiv_eq_div, mkRat_three_ten]
      by_cases h50 : (pyStrip s).length < 50 <;>
        by_cases h10 : (pyWords s).length < 10 <;>
        by_cases hrep : ((pyWords (pyLower s)).dedup.length : ℚ) /
            ((pyWords (pyLower s)).length : ℚ) < 3 / 10 <;>
        simp [h50, h10, hrep, he]

/-- Witness for C8 at a concrete valid input (10 distinct words, 62
characters). -/
theorem claim_C8_witness :
    (({ is_valid := true, issues := [], word_count := 10, unique_word_frac := some 1,
        estimated_reading_time := 1,
        character_count := some 62 } : ValidationResult).is_valid = true ↔
      ({ is_valid := true, issues := [], word_count := 10, unique_word_frac := some 1,
         estimated_reading_time := 1,
         character_count := some 62 } : ValidationResult).issues = []) ∧
    (({ is_valid := true, issues := [], word_count := 10, unique_word_frac := some 1,
        estimated_reading_time := 1,
        character_count := some 62 } : ValidationResult).is_valid = false ↔
      ("alpha bravo charlie delta echo foxtrot golf hotel india juliet" = "" ∨
        (pyStrip "alpha bravo charlie delta echo foxtrot golf hotel india juliet").length < 50 ∨
        (pyWords "alpha bravo charlie delta echo foxtrot golf hotel india juliet").length < 10 ∨
        ((pyWords (pyLower "alpha bravo charlie delta echo foxtrot golf hotel india juliet")).dedup.length : ℚ) /
            ((pyWords (pyLower "alpha bravo charlie delta echo foxtrot golf hotel india juliet")).length : ℚ)
          < 3 / 10)) :=
  claim_C8_validate_content_valid_iff
    "alpha bravo charlie delta echo foxtrot golf hotel india juliet"
    { is_valid := true, issues := [], word_count := 10, unique_word_frac := some 1,
      estimated_reading_time := 1, character_count := some 62 }
    (by decide)

/-- Claim C9 counterexample: on the non-empty, whitespace-only input
`"   "`, `validate_content` hits an unguarded division by a zero word
count (`len(unique_words) / len(words)`) and raises `ZeroDivisionError`
(modelled as `none`) instead of returning a validation-result
dictionary. -/
theorem claim_C9_counterexample : validate_content "   " = none := by decide

/-- Claim C9 (amended): `validate_content` returns a validation-result
dictionary for the empty string and for every string containing at least
one whitespace-delimited word; only on non-empty strings with zero words
does the unguarded unique-word-ratio division raise. -/
theorem claim_C9_total_when_worded (s : String)
    (h : s = "" ∨ (pyWords (pyLower s)).length ≠ 0) :
    (validate_content s).isSome := by
  rcases h with rfl | h
  · decide
  · simp only [validate_content]
    by_cases he : s = ""
    · rw [if_pos he]
      rfl
    · rw [if_neg he, if_neg h]
      rfl

/-- Witness for the amended C9 at the concrete one-word input `"hello"`. -/
theorem claim_C9_witness :
    ("hello" = "" ∨ (pyWords (pyLower "hello")).length ≠ 0) ∧
      (validate_content "hello").isSome :=
  ⟨by decide, claim_C9_total_when_worded "hello" (by decide)⟩

/-- Claim C2: the schema validator accepts the whitespace-only query
`"   "` (its untrimmed length 3 lies in 1..1000) even though its trimmed
length is 0, and only the genuinely empty string is rejected — there is
no trimming validator on `ChatRequest.query`. -/
theorem claim_C2_whitespace_query_accepted :
    chatRequestQueryAccepted "   " = true ∧ (pyStrip "   ").length = 0 ∧
      chatRequestQueryAccepted "" = false ∧
      (∀ q : String, chatRequestQueryAccepted q = (1 ≤ q.length && q.length ≤ 1000)) :=
  ⟨by decide, by decide, by decide, fun _ => rfl⟩

/-! ### vector_store.py — `VectorStoreService.search_similar`

Source: `app/services/vector_store.py`, lines 250–309.  The raw
nearest-neighbour results coming back from the Chroma query are the
input list (document id, metadata, L2 distance); the loop converts each
distance `d` to `max(0.0, 1.0 - d)` and appends the document when the
score reaches `min_score`. -/

/-- Metadata dictionary fields read by the search loop. -/
structure SearchMeta where
  title : Option String
  category : Option String
  url : Option String
deriving DecidableEq

/-- Service-level source document (`app/models/schemas.py`, `SourceDoc`). -/
structure SourceDoc where
  id : String
  title : String
  score : ℚ
  category : Option String
  url : Option String
deriving DecidableEq

/-- Conversion of one raw result `(doc_id, metadata, distance)` performed by
the body of the `search_similar` loop. -/
def toSourceDoc (res : String × SearchMeta × ℚ) : SourceDoc :=
  { id := res.1
    title := res.2.1.title.getD "Unknown"
    score := pyMax 0 (1 - res.2.2)
    category := res.2.1.category
    url := res.2.1.url }

/-- Embedding of the result-conversion loop of
`VectorStoreService.search_similar`: iterate over the raw results in
order, appending each converted document whose score is at least
`min_score`. -/
def search_similar (results : List (String × SearchMeta × ℚ)) (min_score : ℚ) :
    List SourceDoc :=
  results.foldl
    (fun source_docs res =>
      let d := toSourceDoc res
      if min_score ≤ d.score then source_docs ++ [d] else source_docs)
    []

theorem search_similar_foldl (results : List (String × SearchMeta × ℚ))
    (min_score : ℚ) (acc : List SourceDoc) :
    results.foldl
      (fun source_docs res =>
        let d := toSourceDoc res
        if min_score ≤ d.score then source_docs ++ [d] else source_docs)
      acc =
      acc ++ (results.map toSourceDoc).filter (fun d => decide (min_score ≤ d.score)) := by
  induction results generalizing acc with
  | nil => simp
  | cons r rest ih =>
    simp only [List.foldl_cons, List.map_cons, List.filter_cons]
    by_cases h : min_score ≤ (toSourceDoc r).score
    · simp [h, ih]
    · simp [h, ih]

/-- Claim C7: `search_similar` scores every raw result by
`max(0, 1 − distance)` — distance 0 gives score 1, any distance ≥ 1 gives
score 0 — and returns exactly the converted results whose score reaches
`min_score`, in the underlying result order. -/
theorem claim_C7_search_similar_scores (results : List (String × SearchMeta × ℚ))
    (min_score : ℚ) :
    search_similar results min_score =
      (results.map toSourceDoc).filter (fun d => decide (min_score ≤ d.score)) ∧
    (∀ (i : String) (md : SearchMeta) (d : ℚ),
      (toSourceDoc (i, md, d)).score = max 0 (1 - d)) ∧
    (∀ (i : String) (md : SearchMeta), (toSourceDoc (i, md, 0)).score = 1) ∧
    (∀ (i : String) (md : SearchMeta) (d : ℚ), 1 ≤ d →
      (toSourceDoc (i, md, d)).score = 0) := by
  refine ⟨search_similar_foldl results min_score [], ?_, ?_, ?_⟩
  · intro i md d
    simp [toSourceDoc, pyMax_eq_max]
  · intro i md
    simp [toSourceDoc, pyMax_eq_max]
  · intro i md d hd
    simp only [toSourceDoc, pyMax_eq_max]
    have : 1 - d ≤ 0 := by linarith
    simp [max_eq_left this]

/-- Witness for C7: a distance of 2 (≥ 1) is scored 0. -/
theorem claim_C7_witness :
    (1 : ℚ) ≤ 2 ∧
      (toSourceDoc ("doc-1", ⟨some "T", none, none⟩, 2)).score = 0 :=
  ⟨by norm_num,
    (claim_C7_search_similar_scores [] 0).2.2.2 "doc-1" ⟨some "T", none, none⟩ 2
      (by norm_num)⟩

/-! ### embedding.py — `EmbeddingCache`

Source: `app/services/embedding.py`, lines 20–62.  The two dicts
`cache` and `timestamps` share their keys and their (insertion) order,
so they are embedded as one association list of entries.  `time.time()`
is modelled by a strictly increasing `ℕ` clock carried in the state, so
timestamps of live entries are pairwise distinct.  The md5 hex digest of
`_get_cache_key` is modelled by its preimage string `model ++ ":" ++ text`
(md5 treated as injective).  Python's `min(keys, key=get)` returns the
first key attaining the minimal timestamp, which is `eraseP`'s removal
target below. -/

/-- One cache entry: key, embedding vector, insertion timestamp. -/
structure CacheEntry where
  key : String
  emb : List ℚ
  ts : ℕ
deriving DecidableEq

/-- State of `EmbeddingCache`. -/
structure EmbCache where
  entries : List CacheEntry
  max_size : ℕ
  clock : ℕ
deriving DecidableEq

/-- Embedding of `EmbeddingCache._get_cache_key` (md5 modelled injectively
by its preimage `f"{model}:{text}"`). -/
def cacheKey (text model : String) : String := model ++ ":" ++ text

/-- Eviction step of `EmbeddingCache.set`: delete the entry whose
timestamp is minimal (first such entry, matching Python `min` on the
dict's iteration order).  On an empty list Python would raise
(`min([])`); that case is unreachable whenever `max_size ≥ 1`. -/
def evictOldest (l : List CacheEntry) : List CacheEntry :=
  match (l.map CacheEntry.ts).min? with
  | none => l
  | some m => l.eraseP (fun e => decide (e.ts = m))

/-- Dict write `cache[key] = embedding; timestamps[key] = now`: overwrite in
place when the key exists, else append. -/
def upsert (l : List CacheEntry) (k : String) (emb : List ℚ) (ts : ℕ) :
    List CacheEntry :=
  if l.any (fun e => e.key = k) then
    l.map (fun e => if e.key = k then ⟨k, emb, ts⟩ else e)
  else l ++ [⟨k, emb, ts⟩]

/-- Embedding of `EmbeddingCache.set`. -/
def cacheSet (c : EmbCache) (k : String) (emb : List ℚ) : EmbCache :=
  let entries1 :=
    if c.max_size ≤ c.entries.length then evictOldest c.entries else c.entries
  { entries := upsert entries1 k emb c.clock
    max_size := c.max_size
    clock := c.clock + 1 }

/-- Fresh cache of the given capacity (`EmbeddingCache.__init__`). -/
def initCache (max_size : ℕ) : EmbCache := ⟨[], max_size, 0⟩

/-- A sequence of `set` operations applied to a cache. -/
def applyOps (c : EmbCache) (ops : List (String × List ℚ)) : EmbCache :=
  ops.foldl (fun c op => cacheSet c op.1 op.2) c

theorem upsert_length_le (l : List CacheEntry) (k : String) (emb : List ℚ) (ts : ℕ) :
    (upsert l k emb ts).length ≤ l.length + 1 := by
  unfold upsert
  split
  · simp
  · simp

theorem evictOldest_length (l : List CacheEntry) (hl : l ≠ []) :
    (evictOldest l).length = l.length - 1 := by
  unfold evictOldest
  cases hmin : (l.map CacheEntry.ts).min? with
  | none =>
    rw [List.min?_eq_none_iff, List.map_eq_nil_iff] at hmin
    exact absurd hmin hl
  | some m =>
    have hmem : m ∈ l.map CacheEntry.ts := List.min?_mem (fun a b => min_choice a b) hmin
    obtain ⟨e, he, hts⟩ := List.mem_map.1 hmem
    have : (l.eraseP (fun e => decide (e.ts = m))).length = l.length - 1 :=
      List.length_eraseP_of_mem he (by simp [hts])
    simpa using this

theorem cacheSet_max_size (c : EmbCache) (k : String) (emb : List ℚ) :
    (cacheSet c k emb).max_size = c.max_size := rfl

theorem cacheSet_length_le (c : EmbCache) (k : String) (emb : List ℚ)
    (hm : 1 ≤ c.max_size) (h : c.entries.length ≤ c.max_size) :
    (cacheSet c k emb).entries.length ≤ c.max_size := by
  unfold cacheSet
  by_cases hfull : c.max_size ≤ c.entries.length
  · have hlen : c.entries.length = c.max_size := le_antisymm h hfull
    have hne : c.entries ≠ [] := by
      intro hnil
      rw [hnil] at hlen
      simp at hlen
      omega
    simp only [if_pos hfull]
    calc (upsert (evictOldest c.entries) k emb c.clock).length
        ≤ (evictOldest c.entries).length + 1 := upsert_length_le _ _ _ _
      _ = c.entries.length - 1 + 1 := by rw [evictOldest_length _ hne]
      _ ≤ c.max_size := by omega
  · simp only [if_neg hfull]
    calc (upsert c.entries k emb c.clock).length
        ≤ c.entries.length + 1 := upsert_length_le _ _ _ _
      _ ≤ c.max_size := by omega

theorem applyOps_length_le (ops : List (String × List ℚ)) (c : EmbCache)
    (hm : 1 ≤ c.max_size) (h : c.entries.length ≤ c.max_size) :
    (applyOps c ops).entries.length ≤ (applyOps c ops).max_size ∧
      (applyOps c ops).max_size = c.max_size := by
  induction ops generalizing c with
  | nil => exact ⟨h, rfl⟩
  | cons op rest ih =>
    have h1 := cacheSet_length_le c op.1 op.2 hm h
    have := ih (cacheSet c op.1 op.2) (by rw [cacheSet_max_size]; exact hm)
      (by rw [cacheSet_max_size]; exact h1)
    simpa [applyOps, List.foldl_cons] using this

theorem not_mem_eraseP_self_of_nodup_ts (l : List CacheEntry)
    (hnodup : (l.map CacheEntry.ts).Nodup) (m : CacheEntry) (hm : m ∈ l) :
    m ∉ l.eraseP (fun e => decide (e.ts = m.ts)) := by
  have hpm : (fun e => decide (e.ts = m.ts)) m = true := by simp
  obtain ⟨a, l₁, l₂, hno, hpa, hsplit, herase⟩ :=
    List.exists_of_eraseP (p := fun e => decide (e.ts = m.ts)) hm hpm
  rw [herase]
  have hpa' : a.ts = m.ts := of_decide_eq_true hpa
  intro hmem
  rcases List.mem_append.1 hmem with h1 | h2
  · exact hno m h1 (by simp)
  · rw [hsplit, List.map_append, List.map_cons] at hnodup
    have h3 := (List.nodup_cons.1 ((List.nodup_append.1 hnodup).2.1)).1
    exact h3 (hpa' ▸ List.mem_map_of_mem CacheEntry.ts h2)

theorem cacheSet_evicts_oldest (c : EmbCache) (k : String) (emb : List ℚ)
    (hm : 1 ≤ c.max_size) (hfull : c.entries.length = c.max_size)
    (hkey : ∀ e ∈ c.entries, e.key ≠ k)
    (hnodup : (c.entries.map CacheEntry.ts).Nodup) :
    ∃ m, m ∈ c.entries ∧ (∀ e ∈ c.entries, m.ts ≤ e.ts) ∧
      (cacheSet c k emb).entries =
        c.entries.eraseP (fun e => decide (e.ts = m.ts)) ++ [⟨k, emb, c.clock⟩] ∧
      (cacheSet c k emb).entries.length = c.max_size ∧
      m ∉ (cacheSet c k emb).entries := by
  have hne : c.entries ≠ [] := by
    intro hnil
    rw [hnil] at hfull
    simp at hfull
    omega
  cases hmin : (c.entries.map CacheEntry.ts).min? with
  | none =>
    rw [List.min?_eq_none_iff, List.map_eq_nil_iff] at hmin
    exact absurd hmin hne
  | some mts =>
    obtain ⟨m, hmem, hts⟩ :=
      List.mem_map.1 (List.min?_mem (fun a b => min_choice a b) hmin)
    have hminle : ∀ e ∈ c.entries, m.ts ≤ e.ts := by
      intro e he
      have := (List.le_min?_iff (fun a b c => le_min_iff) hmin (x := mts)).1 le_rfl
      exact hts ▸ this _ (List.mem_map_of_mem CacheEntry.ts he)
    have hfull' : c.max_size ≤ c.entries.length := le_of_eq hfull.symm
    have hevict : evictOldest c.entries =
        c.entries.eraseP (fun e => decide (e.ts = m.ts)) := by
      unfold evictOldest
      rw [hmin, hts]
    have hnokey : ((c.entries.eraseP (fun e => decide (e.ts = m.ts))).any
        (fun e => e.key = k)) = false := by
      rw [List.any_eq_false]
      intro e he
      simp [hkey e (List.mem_of_mem_eraseP he)]
    have hresult : (cacheSet c k emb).entries =
        c.entries.eraseP (fun e => decide (e.ts = m.ts)) ++ [⟨k, emb, c.clock⟩] := by
      unfold cacheSet upsert
      simp only [if_pos hfull', hevict, hnokey, Bool.false_eq_true, if_false]
    refine ⟨m, hmem, hminle, hresult, ?_, ?_⟩
    · rw [hresult, List.length_append,
        List.length_eraseP_of_mem hmem (by simp)]
      simp only [List.length_singleton]
      omega
    · rw [hresult]
      intro hcontra
      rcases List.mem_append.1 hcontra with h1 | h2
      · exact not_mem_eraseP_self_of_nodup_ts c.entries hnodup m hmem h1
      · have : m = ⟨k, emb, c.clock⟩ := by simpa using h2
        exact hkey m hmem (by rw [this])

/-- Claim C5: after any sequence of `set` operations the embedding cache
holds at most its configured capacity of entries; and inserting a new
distinct key when the cache is at capacity evicts exactly one existing
entry — the one with the earliest insertion timestamp among current
entries. -/
theorem claim_C5_embedding_cache_capacity :
    (∀ (max_size : ℕ) (ops : List (String × List ℚ)), 1 ≤ max_size →
      (applyOps (initCache max_size) ops).entries.length ≤ max_size) ∧
    (∀ (c : EmbCache) (k : String) (emb : List ℚ),
      1 ≤ c.max_size → c.entries.length = c.max_size →
      (∀ e ∈ c.entries, e.key ≠ k) → (c.entries.map CacheEntry.ts).Nodup →
      ∃ m, m ∈ c.entries ∧ (∀ e ∈ c.entries, m.ts ≤ e.ts) ∧
        (cacheSet c k emb).entries =
          c.entries.eraseP (fun e => decide (e.ts = m.ts)) ++ [⟨k, emb, c.clock⟩] ∧
        (cacheSet c k emb).entries.length = c.max_size ∧
        m ∉ (cacheSet c k emb).entries) := by
  refine ⟨?_, ?_⟩
  · intro max_size ops hm
    have h := applyOps_length_le ops (initCache max_size) hm (by simp [initCache])
    calc (applyOps (initCache max_size) ops).entries.length
        ≤ (applyOps (initCache max_size) ops).max_size := h.1
      _ = max_size := h.2
  · intro c k emb hm hfull hkey hnodup
    exact cacheSet_evicts_oldest c k emb hm hfull hkey hnodup

/-- Concrete full cache used by the C5 witness: capacity 2, entries
inserted at clock 0 and 1, current clock 2. -/
def evictWitnessCache : EmbCache := ⟨[⟨"a", [], 0⟩, ⟨"b", [], 1⟩], 2, 2⟩

/-- Witness for C5: a two-op sequence stays within capacity 1, and setting a
third distinct key in the full two-entry cache evicts exactly the
oldest-stamped entry. -/
theorem claim_C5_witness :
    (applyOps (initCache 1) [("x", []), ("y", [])]).entries.length ≤ 1 ∧
    (∃ m, m ∈ evictWitnessCache.entries ∧
      (∀ e ∈ evictWitnessCache.entries, m.ts ≤ e.ts) ∧
      (cacheSet evictWitnessCache "c" []).entries =
        evictWitnessCache.entries.eraseP (fun e => decide (e.ts = m.ts)) ++
          [⟨"c", [], evictWitnessCache.clock⟩] ∧
      (cacheSet evictWitnessCache "c" []).entries.length =
        evictWitnessCache.max_size ∧
      m ∉ (cacheSet evictWitnessCache "c" []).entries) :=
  ⟨claim_C5_embedding_cache_capacity.1 1 [("x", []), ("y", [])] (by decide),
   claim_C5_embedding_cache_capacity.2 evictWitnessCache "c" []
     (by decide) (by decide) (by decide) (by decide)⟩

/-! ### config.py and mock_data.py — `Settings`, `generate_mock_solutions`

Source: `app/core/config.py`, lines 9–82 and
`app/services/mock_data.py`, lines 273–314.  The `Settings` class
declares no `mock_solutions_count` (nor `enable_mock_data`) field and
carries `extra="forbid"`, so the attribute access
`settings.mock_solutions_count` in `generate_mock_solutions` raises
`AttributeError` (pydantic models raise on undeclared attributes).  The
integer-valued attributes the `Settings` class does declare are embedded
with their defaults in `settingsIntAttr`; the loop body itself is
embedded separately in `generateMockSolutionsWith`, parameterised by the
count the settings object fails to provide and by the
`random.randint(0, 30)` draws. -/

/-- Integer-valued attribute lookup on the `Settings` instance, with the
defaults declared in `config.py`.  `none` models Python
`AttributeError` for an undeclared attribute. -/
def settingsIntAttr (name : String) : Option ℤ :=
  if name = "solarwinds_rate_limit" then some 10
  else if name = "chroma_port" then some 8000
  else if name = "embedding_dimension" then some 1536
  else if name = "redis_db" then some 0
  else if name = "sync_interval_minutes" then some 5
  else if name = "max_workers" then some 4
  else if name = "max_search_results" then some 4
  else if name = "response_timeout_seconds" then some 30
  else none

/-- One generated mock solution.  The `content` and `tags` fields are
copied verbatim from the template with index `template` (the long
template texts are not re-stated here; the claim concerns count, ids and
titles); `days_ago` records the `random.randint(0, 30)` draw that offsets
`updated_at`. -/
structure MockSolution where
  id : String
  title : String
  category : String
  template : ℕ
  days_ago : ℕ
  url : String

/-- Titles of the 10 `SAMPLE_SOLUTIONS` templates, in order. -/
def sampleTitles : List String :=
  ["Password Reset Procedure",
   "Printer Connectivity Issues",
   "VPN Connection Problems",
   "Email Client Configuration",
   "Software Installation Issues",
   "Network Drive Mapping",
   "Blue Screen of Death (BSOD) Analysis",
   "Active Directory Account Management",
   "Backup and Recovery Procedures",
   "Wireless Network Troubleshooting"]

/-- Categories of the 10 `SAMPLE_SOLUTIONS` templates, in order. -/
def sampleCategories : List String :=
  ["Authentication", "Hardware", "Network", "Email", "Software",
   "Network", "Hardware", "Authentication", "Data Management", "Network"]

/-- Python `f"{n:03d}"`. -/
def pad3 (n : ℕ) : String :=
  if n < 10 then "00" ++ toString n
  else if n < 100 then "0" ++ toString n
  else toString n

/-- Embedding of the loop of `MockDataService.generate_mock_solutions`,
parameterised by the target count (which the settings object fails to
provide, see `generate_mock_solutions`) and the random day offsets. -/
def generateMockSolutionsWith (rand : ℕ → ℕ) (target : ℕ) : List MockSolution :=
  (List.range target).map (fun i =>
    let base_count := sampleTitles.length
    let solution_id := "mock-solution-" ++ pad3 (i + 1)
    let baseTitle := sampleTitles.getD (i % base_count) ""
    { id := solution_id
      title :=
        if base_count ≤ i then
          baseTitle ++ " (Variation " ++ toString (i / base_count + 1) ++ ")"
        else baseTitle
      category := sampleCategories.getD (i % base_count) ""
      template := i % base_count
      days_ago := rand i
      url := "https://mock.solarwinds.com/kb/" ++ solution_id })

/-- Embedding of `MockDataService.generate_mock_solutions`: it reads
`settings.mock_solutions_count` before generating anything, and that
attribute does not exist on the repository's `Settings`. -/
def generate_mock_solutions (rand : ℕ → ℕ) : Except String (List MockSolution) :=
  match settingsIntAttr "mock_solutions_count" with
  | none =>
    .error "AttributeError: Settings object has no attribute mock_solutions_count"
  | some n => .ok (generateMockSolutionsWith rand n.toNat)

/-- Claim C3: `generate_mock_solutions` cannot return the claimed 25
records, because `Settings` declares no `mock_solutions_count` field and
the attribute read raises `AttributeError` on every call; the generation
loop itself, supplied with the count 25, produces exactly the ids
`mock-solution-001` … `mock-solution-025` with records 11–20 suffixed
`" (Variation 2)"` and records 21–25 being the first 5 templates
suffixed `" (Variation 3)"`. -/
theorem claim_C3_generate_mock_solutions :
    (∀ rand : ℕ → ℕ, generate_mock_solutions rand =
      .error "AttributeError: Settings object has no attribute mock_solutions_count") ∧
    settingsIntAttr "mock_solutions_count" = none ∧
    (∀ rand : ℕ → ℕ,
      (generateMockSolutionsWith rand 25).length = 25 ∧
      (generateMockSolutionsWith rand 25).map MockSolution.id =
        ["mock-solution-001", "mock-solution-002", "mock-solution-003",
         "mock-solution-004", "mock-solution-005", "mock-solution-006",
         "mock-solution-007", "mock-solution-008", "mock-solution-009",
         "mock-solution-010", "mock-solution-011", "mock-solution-012",
         "mock-solution-013", "mock-solution-014", "mock-solution-015",
         "mock-solution-016", "mock-solution-017", "mock-solution-018",
         "mock-solution-019", "mock-solution-020", "mock-solution-021",
         "mock-solution-022", "mock-solution-023", "mock-solution-024",
         "mock-solution-025"] ∧
      (generateMockSolutionsWith rand 25).map MockSolution.title =
        sampleTitles ++ sampleTitles.map (fun t => t ++ " (Variation 2)") ++
          (sampleTitles.take 5).map (fun t => t ++ " (Variation 3)")) :=
  ⟨fun _ => rfl, rfl, fun _ => ⟨rfl, rfl, rfl⟩⟩

/-! ### chat.py — `chat` endpoint and `generate_fallback_response`

Source: `app/api/v1/chat.py`.  The two external effects inside the
handler's `try` block — the retrieval call
`indexing_service.search_solutions` and the LLM call
`llm_service.generate_response` — are modelled as oracles returning
`Except` (`.error` = the call raised).  `generate_rag_response` catches
every LLM exception and falls back to the template; the handler's outer
`except` catches everything else and returns the generic apology, so the
handler always returns a `ChatResponse` (HTTP 200).  The two
`time.time()` re-readings give the two elapsed-millisecond parameters. -/

/-- Python `f"{x:.2f}"`: round to hundredths, ties to even, two fractional
digits (arguments here are scores in [0, 1]). -/
def roundHalfEven (x : ℚ) : ℤ :=
  let f := ⌊x⌋
  if x - f < 1 / 2 then f
  else if 1 / 2 < x - f then f + 1
  else if f % 2 = 0 then f else f + 1

/-- Two-digit zero padding for the fractional part. -/
def pad2 (n : ℕ) : String := if n < 10 then "0" ++ toString n else toString n

/-- Formatting of a relevance score with `:.2f`. -/
def formatScore2 (score : ℚ) : String :=
  let n := roundHalfEven (score * 100)
  toString (n / 100) ++ "." ++ pad2 (n % 100).toNat

/-- Response model of `POST /chat` (`app/models/schemas.py`,
`ChatResponse`). -/
structure ChatResponse where
  answer : String
  sources : List SourceDoc
  query_id : String
  response_time_ms : ℤ
deriving DecidableEq

/-- Embedding of `generate_fallback_response` (`chat.py`, lines 41–78). -/
def generate_fallback_response (query : String) (sources : List SourceDoc) :
    String :=
  if sources = [] then
    "I couldn't find any specific solutions related to your query in our SolarWinds knowledge base. Please try rephrasing your question or escalate to a senior IT staff member for assistance. (Note: LLM service unavailable - using fallback response)"
  else
    let context_parts := sources.enum.map (fun p =>
      toString (p.1 + 1) ++ ". " ++ p.2.title ++ " (Relevance: " ++
        formatScore2 p.2.score ++ ")")
    let context := String.intercalate "\n" context_parts
    "Based on the query \"" ++ query ++ "\", here are " ++
      toString sources.length ++
      " relevant SolarWinds solution(s) to help you assist the user:\n\n" ++
      context ++
      "\n\nTo resolve this issue:\n1. Review the solutions listed above (ranked by relevance)\n2. Follow the documented procedures in SolarWinds\n3. If the issue persists, consider escalation to senior IT staff\n\n(Note: LLM service unavailable - using fallback response. Full AI-powered guidance will be available once LLM service is configured.)"

/-- Embedding of `generate_rag_response`: any exception from the LLM call is
caught and replaced by the template fallback. -/
def generate_rag_response (query : String) (sources : List SourceDoc)
    (llm : List SourceDoc → Except String String) : String :=
  match llm sources with
  | .ok response => response
  | .error _ => generate_fallback_response query sources

/-- Embedding of the `chat` handler (`chat.py`, lines 81–151): retrieval and
generation inside `try`, generic apology response in `except`. -/
def chat (retrieval : Except String (List SourceDoc))
    (llm : List SourceDoc → Except String String)
    (query_id query : String) (ms_ok ms_err : ℤ) : ChatResponse :=
  match retrieval with
  | .ok sources =>
    { answer := generate_rag_response query sources llm
      sources := sources
      query_id := query_id
      response_time_ms := ms_ok }
  | .error _ =>
    { answer := "I'm sorry, but I encountered an error while processing your request. Please try again later or contact support."
      sources := []
      query_id := query_id
      response_time_ms := ms_err }

/-- Claim C1: the full-variant `POST /chat` handler always returns a
`ChatResponse` (never propagates an exception): if the LLM call raises, the
answer is the deterministic templated fallback built from the retrieved
sources — the fixed nothing-found message when zero sources were
retrieved — and if any other modelled step raises, the response is the
generic apology with empty sources and the elapsed time of the error
path. -/
theorem claim_C1_chat_always_answers
    (retrieval : Except String (List SourceDoc))
    (llm : List SourceDoc → Except String String)
    (query_id query : String) (ms_ok ms_err : ℤ) :
    (∀ sources, retrieval = .ok sources →
      (∀ e, llm sources = .error e →
        chat retrieval llm query_id query ms_ok ms_err =
          { answer := generate_fallback_response query sources
            sources := sources
            query_id := query_id
            response_time_ms := ms_ok }) ∧
      (∀ a, llm sources = .ok a →
        chat retrieval llm query_id query ms_ok ms_err =
          { answer := a
            sources := sources
            query_id := query_id
            response_time_ms := ms_ok })) ∧
    (∀ e, retrieval = .error e →
      chat retrieval llm query_id query ms_ok ms_err =
        { answer := "I'm sorry, but I encountered an error while processing your request. Please try again later or contact support."
          sources := []
          query_id := query_id
          response_time_ms := ms_err }) ∧
    generate_fallback_response query [] =
      "I couldn't find any specific solutions related to your query in our SolarWinds knowledge base. Please try rephrasing your question or escalate to a senior IT staff member for assistance. (Note: LLM service unavailable - using fallback response)" := by
  refine ⟨?_, ?_, rfl⟩
  · intro sources hret
    subst hret
    constructor
    · intro e hllm
      simp [chat, generate_rag_response, hllm]
    · intro a hllm
      simp [chat, generate_rag_response, hllm]
  · intro e hret
    subst hret
    rfl

/-- Witness for C1: concrete oracles where retrieval returns one source and
the LLM raises; the handler answers with the template fallback. -/
theorem claim_C1_witness :
    chat (.ok [⟨"sol-1", "T1", 1 / 2, none, none⟩])
        (fun _ => .error "LLM down") "qid" "printer broken" 5 9 =
      { answer :=
          generate_fallback_response "printer broken" [⟨"sol-1", "T1", 1 / 2, none, none⟩]
        sources := [⟨"sol-1", "T1", 1 / 2, none, none⟩]
        query_id := "qid"
        response_time_ms := 5 } :=
  ((claim_C1_chat_always_answers (.ok [⟨"sol-1", "T1", 1 / 2, none, none⟩])
      (fun _ => .error "LLM down") "qid" "printer broken" 5 9).1
    [⟨"sol-1", "T1", 1 / 2, none, none⟩] rfl).1 "LLM down" rfl

/-! ### solarwinds.py / sync_service.py — `parse_solution_to_record` and the
`trigger_sync` conversion loop

Source: `app/services/solarwinds.py`, lines 300–344 and
`app/services/sync_service.py`, lines 308–327.  Raw provider records are
JSON-like dicts, embedded as association lists of `JVal`; `dict.get`
returns Python `None` (`jnull`) for a missing key, and `a or b` selects
by Python truthiness.  Pydantic validation of `SolutionRecord` fails
exactly when a non-`str` lands in a `str` field, a non-list/non-`str`
truthy value or a list with a non-`str` element lands in `tags`, or a
truthy non-`str` lands in `url` (pydantic v2 does not coerce numbers to
strings).  `datetime` values are abstracted by `PyDateTime`: the
`fromisoformat` branch catches its own `ValueError`/`AttributeError` and
degrades to `utcnow`, so both branches always produce a valid timestamp
and no claim inspects its value. -/

/-- JSON-like values of the provider payload. -/
inductive JVal where
  | jstr (s : String)
  | jint (n : ℤ)
  | jlist (l : List JVal)
  | jnull

/-- Python truthiness of a `JVal`. -/
def truthy : JVal → Bool
  | .jstr s => s != ""
  | .jint n => n != 0
  | .jlist l => !l.isEmpty
  | .jnull => false

/-- A JSON object / Python dict. -/
abbrev JDict := List (String × JVal)

/-- Python `d.get(k)` (default `None`). -/
def getJ (d : JDict) (k : String) : JVal :=
  match List.find? (fun p => p.1 = k) d with
  | some p => p.2
  | none => .jnull

/-- Python `d.get(k, default)`. -/
def getJD (d : JDict) (k : String) (dflt : JVal) : JVal :=
  match List.find? (fun p => p.1 = k) d with
  | some p => p.2
  | none => dflt

/-- Python `a or b`. -/
def pyOr (a b : JVal) : JVal := if truthy a then a else b

mutual

/-- Python `str(v)`. -/
def pyStr : JVal → String
  | .jstr s => s
  | .jint n => toString n
  | .jnull => "None"
  | .jlist l => "[" ++ String.intercalate ", " (pyReprList l) ++ "]"

/-- Python `repr(v)` as used when a value is printed inside a list. -/
def pyReprJ : JVal → String
  | .jstr s => "'" ++ s ++ "'"
  | .jint n => toString n
  | .jnull => "None"
  | .jlist l => "[" ++ String.intercalate ", " (pyReprList l) ++ "]"

/-- Reprs of the elements of a list value. -/
def pyReprList : List JVal → List String
  | [] => []
  | v :: vs => pyReprJ v :: pyReprList vs

end

/-- Abstracted `datetime` value of `SolutionRecord.updated_at`: either the
(possibly `ValueError`-degraded, the exception being caught in source)
parse of an ISO string, or `datetime.utcnow()`. -/
inductive PyDateTime where
  | fromIso (s : String)
  | utcnow
deriving DecidableEq

/-- `SolutionRecord` (`app/models/schemas.py`). -/
structure SolutionRecord where
  id : String
  title : String
  category : String
  content : String
  updated_at : PyDateTime
  tags : List String
  url : Option String
deriving DecidableEq

/-- Pydantic validation of a `str` field. -/
def asStr (v : JVal) : Except String String :=
  match v with
  | .jstr s => .ok s
  | _ => .error "ValidationError: str expected"

/-- Pydantic validation of an `Optional[str]` field. -/
def asOptStr (v : JVal) : Except String (Option String) :=
  match v with
  | .jnull => .ok none
  | .jstr s => .ok (some s)
  | _ => .error "ValidationError: str or None expected"

/-- Tag extraction of `parse_solution_to_record`: a string is split on
commas, stripped and filtered; otherwise the value (or `[]` if falsy,
from `tags or []`) must validate as `List[str]`. -/
def parseTags (tags0 : JVal) : Except String (List String) :=
  match tags0 with
  | .jstr s => .ok (((s.splitOn ",").map pyStrip).filter (fun t => t ≠ ""))
  | v =>
    match (if truthy v then v else .jlist []) with
    | .jlist l =>
      if l.all (fun x => match x with | .jstr _ => true | _ => false) then
        .ok (l.map (fun x => match x with | .jstr s => s | _ => ""))
      else .error "ValidationError: list of str expected"
    | _ => .error "ValidationError: list of str expected"

/-- Embedding of `SolarWindsClient.parse_solution_to_record`
(`solarwinds.py`, lines 300–344); `.error` models an uncaught pydantic
`ValidationError`. -/
def parse_solution_to_record (base_url : String) (d : JDict) :
    Except String SolutionRecord :=
  let solution_id := pyOr (getJ d "id") (getJ d "solutionId")
  let title_v := pyOr (getJ d "title") (getJD d "name" (.jstr "Untitled Solution"))
  let category_v := pyOr (getJ d "category") (getJD d "type" (.jstr "General"))
  let content_v :=
    pyOr (getJ d "content") (pyOr (getJ d "body") (getJD d "description" (.jstr "")))
  let updated_v := pyOr (getJ d "updatedAt") (getJ d "lastModified")
  let updated_at :=
    if truthy updated_v then
      match updated_v with
      | .jstr s => PyDateTime.fromIso s
      | _ => PyDateTime.utcnow
    else PyDateTime.utcnow
  let url_v0 := pyOr (getJ d "url") (getJ d "link")
  let url_v :=
    if ¬ truthy url_v0 ∧ truthy solution_id then
      JVal.jstr (base_url ++ "/solutions/" ++ pyStr solution_id)
    else url_v0
  do
    let title ← asStr title_v
    let category ← asStr category_v
    let content ← asStr content_v
    let tags ← parseTags (getJD d "tags" (.jlist []))
    let url ← asOptStr url_v
    return { id := pyStr solution_id
             title := title
             category := category
             content := content
             updated_at := updated_at
             tags := tags
             url := url }

/-- Embedding of the conversion loop of `SyncService.trigger_sync`
(`sync_service.py`, lines 311–317): each record is parsed inside
`try`/`except`; a failure is logged and the loop continues.  The
resulting list is exactly what `index_solutions_batch` receives (when
nonempty). -/
def triggerSyncConvert (base_url : String) : List JDict → List SolutionRecord
  | [] => []
  | s :: rest =>
    match parse_solution_to_record base_url s with
    | .ok r => r :: triggerSyncConvert base_url rest
    | .error _ => triggerSyncConvert base_url rest

/-- The record produced for a provider payload that has neither an `id` nor
a `solutionId` field. -/
def noneIdRecord : SolutionRecord :=
  { id := "None", title := "Untitled Solution", category := "General",
    content := "", updated_at := .utcnow, tags := [], url := none }

/-- Claim C4 counterexample: a record missing both recognized id fields does
NOT fail normalization — `str(None)` gives it the id `"None"`, it parses
successfully and is kept for indexing — while a record whose `tags`
field is a number does fail validation and is skipped without aborting
the batch. -/
theorem claim_C4_counterexample :
    parse_solution_to_record "https://sw.example" [] = .ok noneIdRecord ∧
    triggerSyncConvert "https://sw.example" [[]] = [noneIdRecord] ∧
    triggerSyncConvert "https://sw.example" [[("tags", .jint 5)]] = [] :=
  ⟨rfl, rfl, rfl⟩

/-- Claim C4 (amended): the `trigger_sync` conversion loop skips exactly
those fetched records whose normalization into a `SolutionRecord`
raises, keeps every record that normalizes (in order), and a failing
record neither aborts the batch nor contributes to the indexed list;
however a record missing both recognized id fields is not such a
failure — it normalizes with id `"None"`. -/
theorem claim_C4_sync_skips_only_failures (base_url : String)
    (solutions : List JDict) :
    triggerSyncConvert base_url solutions =
      solutions.filterMap (fun s => (parse_solution_to_record base_url s).toOption) ∧
    (triggerSyncConvert base_url solutions).length ≤ solutions.length ∧
    (∀ s ∈ solutions, ∀ r, parse_solution_to_record base_url s = .ok r →
      r ∈ triggerSyncConvert base_url solutions) ∧
    triggerSyncConvert base_url solutions =
      triggerSyncConvert base_url
        (solutions.filter
          (fun s => (parse_solution_to_record base_url s).toOption.isSome)) := by
  have hfm : ∀ l : List JDict, triggerSyncConvert base_url l =
      l.filterMap (fun s => (parse_solution_to_record base_url s).toOption) := by
    intro l
    induction l with
    | nil => rfl
    | cons s rest ih =>
      rw [List.filterMap_cons]
      cases hp : parse_solution_to_record base_url s with
      | ok r => simp [triggerSyncConvert, hp, Except.toOption, ih]
      | error e => simp [triggerSyncConvert, hp, Except.toOption, ih]
  refine ⟨hfm solutions, ?_, ?_, ?_⟩
  · rw [hfm solutions]
    exact List.length_filterMap_le _ _
  · intro s hs r hr
    rw [hfm solutions]
    exact List.mem_filterMap.2 ⟨s, hs, by rw [hr]; rfl⟩
  · rw [hfm solutions, hfm (solutions.filter _), List.filterMap_filter]
    congr 1
    funext s
    cases hp : parse_solution_to_record base_url s with
    | ok r => simp [Except.toOption, hp]
    | error e => simp [Except.toOption, hp]

/-- Witness for the amended C4: in a two-record batch whose second record
fails validation, the successfully parsed first record is indexed. -/
theorem claim_C4_witness :
    noneIdRecord ∈ triggerSyncConvert "https://sw.example" [[], [("tags", .jint 5)]] :=
  (claim_C4_sync_skips_only_failures "https://sw.example"
      [[], [("tags", .jint 5)]]).2.2.1 [] (List.mem_cons_self _ _) noneIdRecord rfl

/-! ### solarwinds.py — `RateLimiter.acquire`

Source: `app/services/solarwinds.py`, lines 20–44.  Sequential-time
model: `time.time()` readings are rationals; `await asyncio.sleep(s)`
advances the clock by exactly `s` before the recursive re-entry (the
code re-reads the clock on re-entry, so any extra delay only prunes
more).  `acquire` takes the recorded request list and the current time
and returns the new list together with the admission time; `none` models
the `IndexError` Python would raise on `self.requests[0]` when
`max_requests = 0` makes the saturation test pass with an empty list. -/

/-- The pruning statement
`self.requests = [t for t in self.requests if now - t < window]`. -/
def prune (w : ℚ) (reqs : List ℚ) (now : ℚ) : List ℚ :=
  reqs.filter (fun t => decide (now - t < w))

/-- Embedding of `RateLimiter.acquire`. -/
def acquire (mx : ℕ) (w : ℚ) (reqs : List ℚ) (now : ℚ) : Option (List ℚ × ℚ) :=
  let pruned := prune w reqs now
  if hfull : mx ≤ pruned.length then
    if hne : pruned.isEmpty then none
    else
      let h0 := pruned.headI
      let sleep_time := w - (now - h0)
      if hpos : 0 < sleep_time then
        acquire mx w pruned (now + sleep_time)
      else some (pruned ++ [now], now)
  else some (pruned ++ [now], now)
termination_by (prune w reqs now).length
decreasing_by
  have hne' : prune w reqs now ≠ [] := by
    simpa [List.isEmpty_iff] using hne
  obtain ⟨h0, tl, hcons⟩ := List.exists_cons_of_ne_nil hne'
  rw [hcons]
  simp only [List.headI]
  have hpred : (decide (now + (w - (now - h0)) - h0 < w)) = false := by
    simp only [decide_eq_false_iff_not]
    intro hlt
    linarith
  rw [prune, List.filter_cons]
  simp only [hpred, Bool.false_eq_true, if_false]
  exact Nat.lt_succ_of_le (List.length_filter_le _ _)

theorem mem_prune {w : ℚ} {l : List ℚ} {now t : ℚ} :
    t ∈ prune w l now ↔ t ∈ l ∧ now - t < w := by
  simp [prune]

theorem prune_prune {w : ℚ} (l : List ℚ) {t1 t2 : ℚ} (h : t1 ≤ t2) :
    prune w (prune w l t1) t2 = prune w l t2 := by
  simp only [prune, List.filter_filter]
  apply List.filter_congr
  intro a _
  by_cases h2 : t2 - a < w
  · have h1 : t1 - a < w := by linarith
    simp [h1, h2]
  · simp [h2]

theorem prune_append_singleton {w : ℚ} (hw : 0 < w) (l : List ℚ) (t : ℚ) :
    prune w (l ++ [t]) t = prune w l t ++ [t] := by
  simp only [prune, List.filter_append, List.filter_cons, List.filter_nil]
  have hself : (decide (t - t < w)) = true := by
    simp only [decide_eq_true_eq, sub_self]
    exact hw
  rw [hself]
  simp

theorem acquire_spec (mx : ℕ) (w : ℚ) (hm : 1 ≤ mx) :
    ∀ (n : ℕ) (reqs : List ℚ) (now : ℚ), (prune w reqs now).length ≤ n →
      ∃ t', now ≤ t' ∧
        acquire mx w reqs now = some (prune w reqs t' ++ [t'], t') ∧
        (prune w reqs t').length < mx := by
  intro n
  induction n with
  | zero =>
    intro reqs now hlen
    have hlt : (prune w reqs now).length < mx := by omega
    refine ⟨now, le_rfl, ?_, hlt⟩
    rw [acquire, dif_neg (by omega)]
  | succ n ih =>
    intro reqs now hlen
    by_cases hfull : mx ≤ (prune w reqs now).length
    · have hne : prune w reqs now ≠ [] := by
        intro h
        rw [h] at hfull
        simp at hfull
        omega
      obtain ⟨h0, tl, hcons⟩ := List.exists_cons_of_ne_nil hne
      have hh0 : h0 ∈ prune w reqs now := by
        rw [hcons]
        exact List.mem_cons_self _ _
      have hwin : now - h0 < w := (mem_prune.1 hh0).2
      have hpos : 0 < w - (now - h0) := by linarith
      have hpred : (decide (now + (w - (now - h0)) - h0 < w)) = false := by
        simp only [decide_eq_false_iff_not]
        intro hlt
        linarith
      have hmeas : (prune w (prune w reqs now) (now + (w - (now - h0)))).length ≤ n := by
        rw [hcons, prune, List.filter_cons]
        simp only [hpred, Bool.false_eq_true, if_false]
        have hfle := List.length_filter_le
          (fun t => decide (now + (w - (now - h0)) - t < w)) tl
        have hlen' : (h0 :: tl).length ≤ n + 1 := hcons ▸ hlen
        simp only [List.length_cons] at hlen'
        omega
      obtain ⟨t', ht1, ht2, ht3⟩ :=
        ih (prune w reqs now) (now + (w - (now - h0))) hmeas
      have hnow : now ≤ t' := by linarith
      have hpp : prune w (prune w reqs now) t' = prune w reqs t' :=
        prune_prune _ hnow
      refine ⟨t', hnow, ?_, by rwa [hpp] at ht3⟩
      rw [acquire, dif_pos hfull,
        dif_neg (by rw [hcons]; simp), hcons]
      simp only [List.headI]
      rw [dif_pos hpos, ← hcons, ht2, hpp]
    · refine ⟨now, le_rfl, ?_, by omega⟩
      rw [acquire, dif_neg hfull]

/-- A caller issuing a sequence of `acquire` calls: the `i`-th call is made
`gaps[i]` after the previous call finished (0 for back-to-back requests).
Returns the final recorded list, the final time, and the admission times
in order. -/
def runCalls (mx : ℕ) (w : ℚ) :
    List ℚ → List ℚ → ℚ → Option (List ℚ × ℚ × List ℚ)
  | [], reqs, now => some (reqs, now, [])
  | gap :: gaps, reqs, now =>
    match acquire mx w reqs (now + gap) with
    | none => none
    | some (reqs1, t1) =>
      match runCalls mx w gaps reqs1 t1 with
      | none => none
      | some (reqsF, tF, adm) => some (reqsF, tF, t1 :: adm)

/-- Number of admissions falling in the rolling window `(x - w, x]`. -/
def cntW (w : ℚ) (A : List ℚ) (x : ℚ) : ℕ :=
  A.countP (fun a => decide (x - w < a) && decide (a ≤ x))

theorem runCalls_bound (mx : ℕ) (w : ℚ) (hm : 1 ≤ mx) (hw : 0 < w) :
    ∀ (gaps : List ℚ), (∀ g ∈ gaps, 0 ≤ g) →
    ∀ (A : List ℚ) (t : ℚ), (∀ a ∈ A, a ≤ t) → (∀ x, cntW w A x ≤ mx) →
      ∃ reqsF tF adm,
        runCalls mx w gaps (prune w A t) t = some (reqsF, tF, adm) ∧
        reqsF = prune w (A ++ adm) tF ∧ t ≤ tF ∧
        (∀ a ∈ A ++ adm, a ≤ tF) ∧ (∀ x, cntW w (A ++ adm) x ≤ mx) := by
  intro gaps
  induction gaps with
  | nil =>
    intro _ A t hA hcnt
    exact ⟨prune w A t, t, [], rfl, by simp, le_rfl, by simpa using hA,
      by simpa using hcnt⟩
  | cons g gaps ih =>
    intro hg A t hA hcnt
    have hg0 : 0 ≤ g := hg g (List.mem_cons_self _ _)
    have hgs : ∀ g' ∈ gaps, 0 ≤ g' := fun g' h => hg g' (List.mem_cons_of_mem _ h)
    obtain ⟨t1, ht1, heq, hlt⟩ :=
      acquire_spec mx w hm (prune w (prune w A t) (t + g)).length
        (prune w A t) (t + g) le_rfl
    have htt1 : t ≤ t1 := by linarith
    have hppA : prune w (prune w A t) t1 = prune w A t1 := prune_prune _ htt1
    have hstate : prune w (prune w A t) t1 ++ [t1] = prune w (A ++ [t1]) t1 := by
      rw [hppA, prune_append_singleton hw]
    have hA1 : ∀ a ∈ A ++ [t1], a ≤ t1 := by
      intro a ha
      rcases List.mem_append.1 ha with h | h
      · exact le_trans (hA a h) htt1
      · simp at h
        rw [h]
    have hlt1 : (prune w A t1).length < mx := by
      rw [← hppA]
      exact hlt
    have hcnt1 : ∀ x, cntW w (A ++ [t1]) x ≤ mx := by
      intro x
      rw [cntW, List.countP_append]
      by_cases hb : x - w < t1 ∧ t1 ≤ x
      · have h1 : List.countP (fun a => decide (x - w < a) && decide (a ≤ x)) [t1] = 1 := by
          simp [List.countP_cons, hb.1, hb.2]
        have h2 : List.countP (fun a => decide (x - w < a) && decide (a ≤ x)) A ≤
            (prune w A t1).length := by
          rw [prune, ← List.countP_eq_length_filter]
          apply List.countP_mono_left
          intro a _ hpa
          simp only [Bool.and_eq_true, decide_eq_true_eq] at hpa
          simp only [decide_eq_true_eq]
          have hx := hb.2
          linarith [hpa.1]
        omega
      · have h1 : List.countP (fun a => decide (x - w < a) && decide (a ≤ x)) [t1] = 0 := by
          rcases not_and_or.1 hb with h | h <;>
            simp [List.countP_cons, h]
        have h2 := hcnt x
        rw [cntW] at h2
        omega
    obtain ⟨reqsF, tF, adm, hrun, hreqsF, htF, hAF, hcntF⟩ :=
      ih hgs (A ++ [t1]) t1 hA1 hcnt1
    have hassoc : A ++ t1 :: adm = (A ++ [t1]) ++ adm := by simp
    refine ⟨reqsF, tF, t1 :: adm, ?_, ?_, le_trans htt1 htF, ?_, ?_⟩
    · simp only [runCalls, heq, hstate, hrun]
    · rw [hassoc]
      exact hreqsF
    · intro a ha
      exact hAF a (by rw [← hassoc]; exact ha)
    · intro x
      rw [show A ++ t1 :: adm = (A ++ [t1]) ++ adm from hassoc]
      exact hcntF x

/-- Claim C6: for every sequence of `acquire` calls (arbitrary nonnegative
gaps between calls, sequential-time model) at most `max_requests`
admissions fall in any rolling window of length `window_seconds`; and
when the window is saturated, the caller sleeps exactly
`window_seconds - (now - oldest)` before re-checking, so the admission
happens no earlier than the moment the oldest recorded request leaves
the window. -/
theorem claim_C6_rate_limiter_window (mx : ℕ) (w : ℚ) (gaps : List ℚ) (t0 : ℚ)
    (hm : 1 ≤ mx) (hw : 0 < w) (hg : ∀ g ∈ gaps, 0 ≤ g) :
    (∃ reqsF tF adm, runCalls mx w gaps [] t0 = some (reqsF, tF, adm) ∧
      ∀ x, cntW w adm x ≤ mx) ∧
    (∀ (reqs : List ℚ) (now h0 : ℚ) (tl : List ℚ),
      prune w reqs now = h0 :: tl → mx ≤ (prune w reqs now).length →
        acquire mx w reqs now =
          acquire mx w (h0 :: tl) (now + (w - (now - h0))) ∧
        ∃ res t', acquire mx w reqs now = some (res, t') ∧ h0 + w ≤ t') := by
  constructor
  · have h := runCalls_bound mx w hm hw gaps hg [] t0 (by simp)
      (by intro x; simp [cntW])
    have hnil : prune w [] t0 = [] := rfl
    rw [hnil] at h
    obtain ⟨reqsF, tF, adm, hrun, _, _, _, hcnt⟩ := h
    exact ⟨reqsF, tF, adm, hrun, fun x => by simpa using hcnt x⟩
  · intro reqs now h0 tl hcons hfull
    have hh0 : h0 ∈ prune w reqs now := by
      rw [hcons]
      exact List.mem_cons_self _ _
    have hwin : now - h0 < w := (mem_prune.1 hh0).2
    have hpos : 0 < w - (now - h0) := by linarith
    have hunfold : acquire mx w reqs now =
        acquire mx w (h0 :: tl) (now + (w - (now - h0))) := by
      rw [acquire, dif_pos hfull, dif_neg (by rw [hcons]; simp), hcons]
      simp only [List.headI]
      rw [dif_pos hpos]
    refine ⟨hunfold, ?_⟩
    obtain ⟨t', ht1, ht2, _⟩ :=
      acquire_spec mx w hm (prune w (h0 :: tl) (now + (w - (now - h0)))).length
        (h0 :: tl) (now + (w - (now - h0))) le_rfl
    exact ⟨_, t', by rw [hunfold, ht2], by linarith⟩

/-- Witness for C6 at `max_requests = 2`, a 60-second window and three
back-to-back requests from a fresh limiter. -/
theorem claim_C6_witness :
    ((1 : ℕ) ≤ 2 ∧ (0 : ℚ) < 60 ∧ (∀ g ∈ ([0, 0, 0] : List ℚ), 0 ≤ g)) ∧
    (∃ reqsF tF adm, runCalls 2 60 [0, 0, 0] [] 0 = some (reqsF, tF, adm) ∧
      ∀ x, cntW 60 adm x ≤ 2) :=
  ⟨⟨by decide, by decide, by decide⟩,
    (claim_C6_rate_limiter_window 2 60 [0, 0, 0] 0 (by decide) (by decide)
      (by decide)).1⟩

/-- Claim C10: in the sequential execution model (sleeping advances the
clock by the requested duration), `RateLimiter.acquire` terminates and
admits the request for every window state whenever `max_requests ≥ 1`:
each sleep-and-recurse step moves the oldest recorded timestamp out of
the window, shrinking the pruned list. -/
theorem claim_C10_acquire_terminates (mx : ℕ) (w : ℚ) (reqs : List ℚ)
    (now : ℚ) (hm : 1 ≤ mx) : (acquire mx w reqs now).isSome := by
  obtain ⟨t', _, heq, _⟩ :=
    acquire_spec mx w hm (prune w reqs now).length reqs now le_rfl
  rw [heq]
  rfl

/-- Witness for C10 at the default configuration (10 requests, 60-second
window, fresh limiter). -/
theorem claim_C10_witness : (1 : ℕ) ≤ 10 ∧ (acquire 10 60 [] 0).isSome :=
  ⟨by decide, claim_C10_acquire_terminates 10 60 [] 0 (by decide)⟩

end SWChat
